import Mathlib

/-!
Verification of the keep-core random-beacon submission and group-registry code.

The development shallowly embeds three source units:
* `solidity/contracts/libraries/operator/Groups.sol` — the on-chain group
  registry (selection, expiry, termination, reward withdrawal);
* the Go `PublishingMember` functions `PrepareResult` and
  `determinePublishersIDs`;
* the Go `SubmittingMember.SubmitDKGResult` submission race.

Solidity `uint256` values are modelled as `Nat`; SafeMath `sub` reverts on
underflow (`safeSub` returns `none`), `add` only reverts on overflow above
2^256, which no state considered here approaches, so it is plain `Nat`
addition.  A reverting call is `none`.  Dynamic-array reads out of bounds
revert, hence the `getElem?` matches.  Solidity loops are rendered with an
explicit fuel argument large enough that fuel exhaustion coincides with the
loop's own exit (or with the revert the loop would hit), keeping every
definition executable by kernel reduction.
-/

set_option linter.unusedVariables false

namespace Keep

/-- `struct Group` of Groups.sol.  `bytes groupPubKey` is modelled as a `Nat`
identifier; its byte contents never matter to the registry logic. -/
structure Group where
  groupPubKey : Nat
  registrationBlockHeight : Nat
  terminated : Bool
deriving DecidableEq

/-- `struct Storage` of the Groups library.  Mappings become functions with
the Solidity default values (`0`, `[]`, `false`) as the ambient default;
`address` is modelled as `Nat`. -/
structure Storage where
  groupActiveTime : Nat
  relayEntryTimeout : Nat
  groups : List Group
  activeTerminatedGroups : List Nat
  groupMembers : Nat → List Nat
  groupMemberRewards : Nat → Nat
  withdrawn : Nat → Nat → Bool
  expiredGroupOffset : Nat

/-- SafeMath `sub`: reverts (`none`) on underflow. -/
def safeSub (a b : Nat) : Option Nat :=
  if b ≤ a then some (a - b) else none

/-- Body of `groupActiveTimeOf`, with the one storage field it reads
(`self.groupActiveTime`) passed explicitly so that loops over a storage
update can reuse it verbatim. -/
def groupActiveTimeAt (groupActiveTime : Nat) (g : Group) : Nat :=
  g.registrationBlockHeight + groupActiveTime

/-- `groupActiveTimeOf(self, group) = registrationBlockHeight + groupActiveTime`. -/
def groupActiveTimeOf (s : Storage) (g : Group) : Nat :=
  groupActiveTimeAt s.groupActiveTime g

/-- `groupStaleTime(self, group) = groupActiveTimeOf + relayEntryTimeout`. -/
def groupStaleTime (s : Storage) (g : Group) : Nat :=
  groupActiveTimeOf s g + s.relayEntryTimeout

/-- The index overload of `isStaleGroup`: reads `self.groups[groupIndex]`
(reverting when out of bounds) and tests `groupStaleTime < block.number`.
`block.number` is the explicit `blockNumber` argument. -/
def isStaleGroupByIndex (s : Storage) (groupIndex blockNumber : Nat) : Option Bool :=
  match s.groups[groupIndex]? with
  | none => none
  | some g => some (decide (groupStaleTime s g < blockNumber))

/-- `numberOfGroups = groups.length.sub(expiredGroupOffset).sub(activeTerminatedGroups.length)`
with SafeMath subtraction. -/
def numberOfGroups (s : Storage) : Option Nat :=
  (safeSub s.groups.length s.expiredGroupOffset).bind
    (fun x => safeSub x s.activeTerminatedGroups.length)

/-- The `while` loop of `expireOldGroups`:
`while (groupActiveTimeOf(self, self.groups[offset]) < block.number) offset++`.
Returns the final offset, or `none` when the loop indexes past the end of
`groups` (a reverting array read).  The fuel used by `expireOldGroups` is
`groups.length + 1 - offset`, which is enough for the loop to reach either its
exit condition or the reverting read, so exhaustion never cuts a run short. -/
def expireLoopFuel (groupActiveTime : Nat) (gs : List Group) (blockNumber : Nat) :
    Nat → Nat → Option Nat
  | 0, _ => none
  | fuel + 1, off =>
    match gs[off]? with
    | none => none
    | some g =>
      if groupActiveTimeAt groupActiveTime g < blockNumber then
        expireLoopFuel groupActiveTime gs blockNumber fuel (off + 1)
      else some off

/-- One step of the removal loop of `expireOldGroups`:
`for (i = 0; i < activeTerminatedGroups.length; i++) if (offset > atg[i]) { atg[i] = atg[last]; atg.length--; }`.
Note the loop increments `i` even after a swap-with-last removal, so the
element swapped into slot `i` is not re-examined — rendered faithfully here.
Fuel equal to the initial list length suffices: `i` grows by one per step and
the loop is over once `i` reaches the (only ever shrinking) length. -/
def removeTerminatedLoop (offset : Nat) : Nat → Nat → List Nat → List Nat
  | 0, _, atg => atg
  | fuel + 1, i, atg =>
    if i < atg.length then
      if atg.getD i 0 < offset then
        removeTerminatedLoop offset fuel (i + 1)
          ((atg.set i (atg.getD (atg.length - 1) 0)).dropLast)
      else
        removeTerminatedLoop offset fuel (i + 1) atg
    else atg

/-- `expireOldGroups`: advance `expiredGroupOffset` while the group at the
offset has expired, then run one removal pass over `activeTerminatedGroups`.
`none` models the revert when the scan indexes past the end of `groups`. -/
def expireOldGroups (s : Storage) (blockNumber : Nat) : Option Storage :=
  match expireLoopFuel s.groupActiveTime s.groups blockNumber
      (s.groups.length + 1 - s.expiredGroupOffset) s.expiredGroupOffset with
  | none => none
  | some off =>
    some { s with
      expiredGroupOffset := off,
      activeTerminatedGroups :=
        removeTerminatedLoop off s.activeTerminatedGroups.length 0
          s.activeTerminatedGroups }

/-- `shiftByExpiredGroups = expiredGroupOffset + selectedIndex`. -/
def shiftByExpiredGroups (s : Storage) (selectedIndex : Nat) : Nat :=
  s.expiredGroupOffset + selectedIndex

/-- `shiftByTerminatedGroups`: walk `activeTerminatedGroups` in storage order,
incrementing the index past every tracked terminated entry `≤` the running
value. -/
def shiftByTerminatedGroups (s : Storage) (selectedIndex : Nat) : Nat :=
  s.activeTerminatedGroups.foldl
    (fun shiftedIndex t => if t ≤ shiftedIndex then shiftedIndex + 1 else shiftedIndex)
    selectedIndex

/-- `selectGroup(seed)`: `require(numberOfGroups > 0)`, `expireOldGroups()`,
`selected = seed % numberOfGroups()`, then the two shifts.  Solidity 0.5
modulo by zero aborts the call, hence the explicit zero test after expiry.
Returns the updated storage and the selected absolute group index. -/
def selectGroup (s : Storage) (blockNumber seed : Nat) : Option (Storage × Nat) :=
  match numberOfGroups s with
  | none => none
  | some n =>
    if n = 0 then none
    else
      match expireOldGroups s blockNumber with
      | none => none
      | some s1 =>
        match numberOfGroups s1 with
        | none => none
        | some n1 =>
          if n1 = 0 then none
          else some (s1, shiftByTerminatedGroups s1 (shiftByExpiredGroups s1 (seed % n1)))

/-- `terminateGroup`: set the terminated flag and push the index onto
`activeTerminatedGroups`, with no check of the current flag.  Reading
`groups[groupIndex]` out of bounds reverts. -/
def terminateGroup (s : Storage) (groupIndex : Nat) : Option Storage :=
  match s.groups[groupIndex]? with
  | none => none
  | some g =>
    some { s with
      groups := s.groups.set groupIndex { g with terminated := true },
      activeTerminatedGroups := s.activeTerminatedGroups ++ [groupIndex] }

/-- `withdrawFromGroup(operator, groupIndex)`: requires
`expiredGroupOffset > groupIndex` and the index overload of `isStaleGroup`;
requires the `(group, operator)` pair not already withdrawn; marks it
withdrawn; accumulates `groupMemberRewards[pk]` once per member-list slot
holding `operator`.  Returns the updated storage and the reward paid. -/
def withdrawFromGroup (s : Storage) (blockNumber operator groupIndex : Nat) :
    Option (Storage × Nat) :=
  match s.groups[groupIndex]? with
  | none => none
  | some g =>
    if s.expiredGroupOffset > groupIndex ∧ groupStaleTime s g < blockNumber then
      if s.withdrawn g.groupPubKey operator then none
      else
        some
          ({ s with
              withdrawn := fun pk o =>
                if pk = g.groupPubKey ∧ o = operator then true else s.withdrawn pk o },
            (s.groupMembers g.groupPubKey).foldl
              (fun rewards a =>
                if operator = a then rewards + s.groupMemberRewards g.groupPubKey
                else rewards)
              0)
    else none

/-- `reportRelayEntryTimeout`: terminates the group unconditionally, then
computes the tattletale reward adjustment `min(20*100 / groupSize, 100)`
(SafeMath division reverts on `groupSize = 0`).  The seizure itself is the
external staking contract's side effect; the registry outcome is the updated
storage and the adjustment percentage passed to `seize`. -/
def reportRelayEntryTimeout (s : Storage) (groupIndex groupSize minimumStake : Nat) :
    Option (Storage × Nat) :=
  match terminateGroup s groupIndex with
  | none => none
  | some s1 =>
    if groupSize = 0 then none
    else
      some (s1, if 100 < 20 * 100 / groupSize then 100 else 20 * 100 / groupSize)

/-! ### The Go `PublishingMember` result determiner and eligibility scheduler -/

/-- `result.Result` of the Go code.  `GroupPublicKey` is a `*big.Int`
(`none` models the nil pointer of a failed result); member lists are the Go
slices, with a nil slice rendered as `[]`. -/
structure Result where
  Success : Bool
  GroupPublicKey : Option Int
  Disqualified : List Nat
  Inactive : List Nat
deriving DecidableEq

/-- `PublishingMember.PrepareResult`: fails the result when
`len(disqualified) + len(inactive) > dishonestThreshold / 2` (Go integer
division), carrying only the disqualified list; otherwise succeeds, carrying
both lists and the placeholder public key `big.NewInt(123)` of the source. -/
def PrepareResult (disqualifiedMembers inactiveMembers : List Nat)
    (dishonestThreshold : Nat) : Result :=
  if disqualifiedMembers.length + inactiveMembers.length > dishonestThreshold / 2 then
    { Success := false
      GroupPublicKey := none
      Disqualified := disqualifiedMembers
      Inactive := [] }
  else
    { Success := true
      GroupPublicKey := some 123
      Disqualified := disqualifiedMembers
      Inactive := inactiveMembers }

/-- `PublishingMember.determinePublishersIDs`.  Go `int` arithmetic is `Int`;
`int(math.Ceil(float64(surpassBlocks / blockStep)))` performs the *integer*
division first, so the ceiling is applied to an already-truncated quotient
and is the identity (`Int.tdiv` truncates toward zero exactly as Go does; the
values involved are far below 2^53, so the float round-trip is exact).
Division by a zero `blockStep` is a Go runtime panic, modelled as `none`.
The member loop appends while `index <= highestMemberIndex`, i.e. takes the
prefix of length `highestMemberIndex + 1` (empty when that is negative). -/
def determinePublishersIDs (memberIDs : List Int)
    (currentBlock initialBlockHeight expectedProtocolDuration blockStep : Int) :
    Option (List Int) :=
  if blockStep = 0 then none
  else
    let elapsedBlocks := currentBlock - initialBlockHeight
    let highestMemberIndex : Int :=
      if elapsedBlocks ≤ expectedProtocolDuration then 0
      else Int.tdiv (elapsedBlocks - expectedProtocolDuration) blockStep
    some (memberIDs.take (highestMemberIndex + 1).toNat)

/-- The highest eligible ordinal position as the specification words it:
`ceil((elapsed − ExpectedProtocolDuration) / BlockStep)` when elapsed exceeds
the expected duration, else `0`.  For a positive step and positive surpass,
`(surpass + step − 1).ediv step` is exactly that ceiling.  This definition
follows the spec, for comparison against `determinePublishersIDs`. -/
def specHighestMemberIndex (elapsedBlocks expectedProtocolDuration blockStep : Int) : Int :=
  if elapsedBlocks ≤ expectedProtocolDuration then 0
  else (elapsedBlocks - expectedProtocolDuration + blockStep - 1).ediv blockStep

/-! ### The Go `SubmittingMember.SubmitDKGResult` submission race -/

/-- An occurrence the submission select-loop can react to: the member's own
eligibility notification firing, or a DKG-result-submission chain event
carrying some request ID. -/
inductive SubmitEvent where
  | eligible : SubmitEvent
  | submission : Nat → SubmitEvent
deriving DecidableEq

/-- Outcome of a `SubmitDKGResult` call.  `returnedWithoutSubmitting` is the
nil-error return that sends no transaction; `submittedTransaction` is the
branch that unsubscribes and sends this member's own result (returning that
transaction's completion outcome); `errored` covers the propagated chain
failures; `stillWaiting` means the supplied event sequence ended with the
select loop still blocked. -/
inductive SubmitOutcome where
  | errored : SubmitOutcome
  | returnedWithoutSubmitting : SubmitOutcome
  | submittedTransaction : SubmitOutcome
  | stillWaiting : SubmitOutcome
deriving DecidableEq

/-- The `for { select { ... } }` loop of `SubmitDKGResult`, reacting to the
events in arrival order: an eligibility firing submits; a submission event
with the matching request ID returns without submitting; any other
submission event is ignored and the loop continues. -/
def submitLoop (requestID : Nat) : List SubmitEvent → SubmitOutcome
  | [] => SubmitOutcome.stillWaiting
  | SubmitEvent.eligible :: _ => SubmitOutcome.submittedTransaction
  | SubmitEvent.submission rid :: rest =>
    if rid = requestID then SubmitOutcome.returnedWithoutSubmitting
    else submitLoop requestID rest

/-- The chain interactions one `SubmitDKGResult` call performs, in call order:
`GetConfig` (may fail), `OnDKGResultSubmitted` subscription (may fail),
`IsDKGResultSubmitted` (`none` when the check itself fails), the
`waitForSubmissionEligibility` block-waiter registration (may fail), and the
events subsequently delivered to the select loop. -/
structure ChainEnv where
  configOk : Bool
  subscribeOk : Bool
  alreadySubmittedCheck : Option Bool
  waiterOk : Bool
  events : List SubmitEvent

/-- `SubmittingMember.SubmitDKGResult`, with the chain modelled by a
`ChainEnv`: config fetch and subscription failures error out; a positive
already-submitted check returns nil without submitting; otherwise the
eligibility waiter is registered and the select loop runs over the delivered
events. -/
def SubmitDKGResult (requestID : Nat) (env : ChainEnv) : SubmitOutcome :=
  if env.configOk = false then SubmitOutcome.errored
  else if env.subscribeOk = false then SubmitOutcome.errored
  else
    match env.alreadySubmittedCheck with
    | none => SubmitOutcome.errored
    | some true => SubmitOutcome.returnedWithoutSubmitting
    | some false =>
      if env.waiterOk = false then SubmitOutcome.errored
      else submitLoop requestID env.events

/-- `waitForSubmissionEligibility` passes
`(int(sm.index) - 1) * blockStep` as the offset to `BlockWaiter`; member
indices are 1-based, so the `Nat` subtraction agrees with the Go `int`
arithmetic on the whole domain. -/
def waitForSubmissionEligibilityOffset (memberIndex blockStep : Nat) : Nat :=
  (memberIndex - 1) * blockStep

/-- Modelled from the spec: the chain adapter's `BlockWaiter` one-shot
notification, whose implementation is not among the sources (only its caller
is).  Per §4.3/§6 of the spec it "fires once the chain reaches
InitialBlockHeight + offset"; in particular the height at which the wait is
registered (`registrationHeight`) plays no role, which this definition makes
explicit by ignoring that argument. -/
def blockWaiterFireHeight (initialBlockHeight registrationHeight offsetBlocks : Nat) : Nat :=
  initialBlockHeight + offsetBlocks

/-! ### Concrete registry states used to evaluate the theorems -/

/-- A registry state with the given timing constants, group list, tracked
terminated indices and expiry offset; member lists empty, rewards zero,
nothing withdrawn. -/
def baseStorage (groupActiveTime relayEntryTimeout : Nat) (gs : List Group)
    (atg : List Nat) (offset : Nat) : Storage :=
  { groupActiveTime := groupActiveTime
    relayEntryTimeout := relayEntryTimeout
    groups := gs
    activeTerminatedGroups := atg
    groupMembers := fun _ => []
    groupMemberRewards := fun _ => 0
    withdrawn := fun _ _ => false
    expiredGroupOffset := offset }

/-- The group of the spec's timing example: registered at height 1000. -/
def exampleGroup : Group :=
  { groupPubKey := 0, registrationBlockHeight := 1000, terminated := false }

/-- Registry holding only `exampleGroup`, with `groupActiveTime = 100` and
`relayEntryTimeout = 20`. -/
def exampleStorage : Storage :=
  baseStorage 100 20 [exampleGroup] [] 0

/-- A registry whose single group is active by the bookkeeping
(`numberOfGroups = 1`) but time-expired at block 11. -/
def lastActiveExpiredStorage : Storage :=
  baseStorage 10 5 [{ groupPubKey := 0, registrationBlockHeight := 0, terminated := false }] [] 0

/-- Five groups, group 2 terminated and tracked, group 0 expired
(offset 1); every group registered at height 1000 with
`groupActiveTime = 100`, so nothing further expires before height 1101. -/
def fiveGroupStorage : Storage :=
  baseStorage 100 20
    [ { groupPubKey := 0, registrationBlockHeight := 1000, terminated := false }
    , { groupPubKey := 1, registrationBlockHeight := 1000, terminated := false }
    , { groupPubKey := 2, registrationBlockHeight := 1000, terminated := true }
    , { groupPubKey := 3, registrationBlockHeight := 1000, terminated := false }
    , { groupPubKey := 4, registrationBlockHeight := 1000, terminated := false } ]
    [2] 1

/-- Three groups of which the first two are time-expired at block 50 and both
tracked as terminated: the state exercising the removal pass of
`expireOldGroups`. -/
def skewedRemovalStorage : Storage :=
  baseStorage 10 0
    [ { groupPubKey := 0, registrationBlockHeight := 0, terminated := false }
    , { groupPubKey := 1, registrationBlockHeight := 0, terminated := false }
    , { groupPubKey := 2, registrationBlockHeight := 100, terminated := false } ]
    [0, 1] 0

/-- One expired group with key 7, member list `[3, 4, 3]` (operator 3 occurs
twice) and accumulated reward 5; stale once the block height exceeds 15. -/
def rewardStorage : Storage :=
  { groupActiveTime := 10
    relayEntryTimeout := 5
    groups := [{ groupPubKey := 7, registrationBlockHeight := 0, terminated := false }]
    activeTerminatedGroups := []
    groupMembers := fun pk => if pk = 7 then [3, 4, 3] else []
    groupMemberRewards := fun pk => if pk = 7 then 5 else 0
    withdrawn := fun _ _ => false
    expiredGroupOffset := 1 }

/-- Three fresh groups, none expired or terminated. -/
def tripleStorage : Storage :=
  baseStorage 10 5
    [ { groupPubKey := 0, registrationBlockHeight := 0, terminated := false }
    , { groupPubKey := 1, registrationBlockHeight := 0, terminated := false }
    , { groupPubKey := 2, registrationBlockHeight := 0, terminated := false } ]
    [] 0

/-- `tripleStorage` after one `terminateGroup 0`. -/
def tripleStorage1 : Storage :=
  { tripleStorage with
    groups :=
      [ { groupPubKey := 0, registrationBlockHeight := 0, terminated := true }
      , { groupPubKey := 1, registrationBlockHeight := 0, terminated := false }
      , { groupPubKey := 2, registrationBlockHeight := 0, terminated := false } ]
    activeTerminatedGroups := [0] }

/-- `tripleStorage` after two `terminateGroup 0` calls. -/
def tripleStorage2 : Storage :=
  { tripleStorage with
    groups :=
      [ { groupPubKey := 0, registrationBlockHeight := 0, terminated := true }
      , { groupPubKey := 1, registrationBlockHeight := 0, terminated := false }
      , { groupPubKey := 2, registrationBlockHeight := 0, terminated := false } ]
    activeTerminatedGroups := [0, 0] }

/-- A chain where some earlier run already put a result on-chain. -/
def alreadyDoneEnv : ChainEnv :=
  { configOk := true, subscribeOk := true, alreadySubmittedCheck := some true
    waiterOk := true, events := [] }

/-- A chain delivering first a submission event for request 5, then one for
request 7, before any eligibility firing. -/
def racedEnv : ChainEnv :=
  { configOk := true, subscribeOk := true, alreadySubmittedCheck := some false
    waiterOk := true
    events := [SubmitEvent.submission 5, SubmitEvent.submission 7] }

/-! ### Helper lemmas about the expiry loop -/

/-- When the group at the current offset exists and has not expired, the scan
stops at that offset. -/
theorem expireLoopFuel_stop {groupActiveTime blockNumber : Nat} {gs : List Group}
    (fuel off : Nat) (g : Group) (hg : gs[off]? = some g)
    (hc : ¬ (groupActiveTimeAt groupActiveTime g < blockNumber)) :
    expireLoopFuel groupActiveTime gs blockNumber (fuel + 1) off = some off := by
  simp only [expireLoopFuel, hg, if_neg hc]

/-- A successful scan stops at an offset holding a not-yet-expired group. -/
theorem expireLoopFuel_not_expired {groupActiveTime blockNumber fuel off off2 : Nat}
    {gs : List Group}
    (h : expireLoopFuel groupActiveTime gs blockNumber fuel off = some off2) :
    ∃ g, gs[off2]? = some g ∧ ¬ (groupActiveTimeAt groupActiveTime g < blockNumber) := by
  induction fuel generalizing off with
  | zero => simp [expireLoopFuel] at h
  | succ n ih =>
    rw [expireLoopFuel] at h
    cases hg : gs[off]? with
    | none => simp [hg] at h
    | some g =>
      simp only [hg] at h
      by_cases hc : groupActiveTimeAt groupActiveTime g < blockNumber
      · rw [if_pos hc] at h
        exact ih h
      · rw [if_neg hc] at h
        obtain rfl : off = off2 := Option.some.inj h
        exact ⟨g, hg, hc⟩

/-- A successful scan never moves the offset backwards. -/
theorem expireLoopFuel_le {groupActiveTime blockNumber fuel off off2 : Nat}
    {gs : List Group}
    (h : expireLoopFuel groupActiveTime gs blockNumber fuel off = some off2) :
    off ≤ off2 := by
  induction fuel generalizing off with
  | zero => simp [expireLoopFuel] at h
  | succ n ih =>
    rw [expireLoopFuel] at h
    cases hg : gs[off]? with
    | none => simp [hg] at h
    | some g =>
      simp only [hg] at h
      by_cases hc : groupActiveTimeAt groupActiveTime g < blockNumber
      · rw [if_pos hc] at h
        exact Nat.le_of_succ_le (ih h)
      · rw [if_neg hc] at h
        obtain rfl : off = off2 := Option.some.inj h
        exact Nat.le_refl off

/-! ### C5 — the timing example's exact heights -/

/-- C5 counterexample: with `groupActiveTime = 100`, `relayEntryTimeout = 20`
and registration height 1000, at block height 1100 the expiry condition of
`expireOldGroups` (`groupActiveTimeOf < block.number`, strict) does not yet
hold, and at height 1120 `isStaleGroup` is still false: the claimed heights
are one block early. -/
theorem groupTiming_exact_heights_fail :
    groupActiveTimeOf exampleStorage exampleGroup = 1100
    ∧ ¬ (groupActiveTimeOf exampleStorage exampleGroup < 1100)
    ∧ groupStaleTime exampleStorage exampleGroup = 1120
    ∧ isStaleGroupByIndex exampleStorage 0 1120 = some false := by
  decide

/-- C5 amended: the cutoffs are 1100 and 1120 as computed, but both
comparisons are strict, so the group first satisfies the expiry condition at
height 1101 and first counts as stale at height 1121; at 1100 a run of
`expireOldGroups` leaves the offset at 0. -/
theorem groupTiming_next_block :
    groupActiveTimeOf exampleStorage exampleGroup = 1100
    ∧ groupStaleTime exampleStorage exampleGroup = 1120
    ∧ ¬ (groupActiveTimeOf exampleStorage exampleGroup < 1100)
    ∧ groupActiveTimeOf exampleStorage exampleGroup < 1101
    ∧ (expireOldGroups exampleStorage 1100).map Storage.expiredGroupOffset = some 0
    ∧ isStaleGroupByIndex exampleStorage 0 1120 = some false
    ∧ isStaleGroupByIndex exampleStorage 0 1121 = some true := by
  decide

/-! ### C9 — the selectGroup guard runs before expiry -/

/-- C9: a registry whose single group counts as active (`numberOfGroups = 1`,
so the `require` of `selectGroup` passes) but has time-expired at the current
height 11; the expiry scan invoked after the guard walks past the end of the
groups array and the whole `selectGroup` call fails, for every seed. -/
theorem selectGroup_guard_passes_but_call_reverts :
    numberOfGroups lastActiveExpiredStorage = some 1
    ∧ ∀ seed, selectGroup lastActiveExpiredStorage 11 seed = none := by
  exact ⟨by decide, fun seed => rfl⟩

/-! ### C4 — the eligibility window formula -/

/-- C4 code-bug evidence: at `CurrentBlock = 11`, `InitialBlockHeight = 0`,
`ExpectedProtocolDuration = 10`, `BlockStep = 2` (one block past the expected
duration), the code's `int(math.Ceil(float64(surpass / blockStep)))` divides
the integers first, so it yields index 0 and only the first member `10` is
eligible, while the ceiling the spec (and the code's own comment
`j = 1 + ceiling(T_over / T_step)`) prescribes gives index 1, i.e. the
two-member prefix `[10, 20]`. -/
theorem determinePublishersIDs_truncates_not_ceils :
    determinePublishersIDs [10, 20, 30] 11 0 10 2 = some [10]
    ∧ specHighestMemberIndex 11 10 2 = 1
    ∧ [10, 20, 30].take ((specHighestMemberIndex 11 10 2).toNat + 1) = [10, 20] := by
  decide

/-! ### C2 — the result determiner's condition -/

/-- C2 counterexample: with `D = I = {1}` (each given to the code as the
one-element slice `[1]`) and threshold 2, the union `D ∪ I` has cardinality
`1 ≤ 2/2`, so the claim requires a successful result, but `PrepareResult`
tests `len(D) + len(I) = 2 > 1` and fails the result. -/
theorem PrepareResult_overlap_counterexample :
    (PrepareResult [1] [1] 2).Success = false
    ∧ ({1} ∪ {1} : Finset ℕ).card = 1
    ∧ 1 ≤ 2 / 2 := by
  decide

/-- C2 amended: `PrepareResult` succeeds iff `|D| + |I| ≤ T/2` (integer
division) — which agrees with the claimed `|D ∪ I| ≤ T/2` exactly when the
two sets are disjoint — and a failed result carries no public key and omits
the inactive set. -/
theorem PrepareResult_success_iff (dq ia : List Nat) (T : Nat) :
    ((PrepareResult dq ia T).Success = true ↔ dq.length + ia.length ≤ T / 2)
    ∧ ((PrepareResult dq ia T).Success = false →
        (PrepareResult dq ia T).GroupPublicKey = none
        ∧ (PrepareResult dq ia T).Inactive = [])
    ∧ (∀ (D I : Finset ℕ), Disjoint D I →
        ((PrepareResult D.toList I.toList T).Success = true ↔ (D ∪ I).card ≤ T / 2)) := by
  have hsucc : (PrepareResult dq ia T).Success = true ↔ dq.length + ia.length ≤ T / 2 := by
    unfold PrepareResult
    split_ifs with h
    · simp only [Bool.false_eq_true, false_iff]
      omega
    · simp only [true_iff]
      omega
  refine ⟨hsucc, ?_, ?_⟩
  · intro hf
    unfold PrepareResult at hf ⊢
    split_ifs at hf ⊢ with h
    exact ⟨rfl, rfl⟩
  · intro D I hDI
    have h1 : (PrepareResult D.toList I.toList T).Success = true ↔
        D.toList.length + I.toList.length ≤ T / 2 := by
      unfold PrepareResult
      split_ifs with h
      · simp only [Bool.false_eq_true, false_iff]
        omega
      · simp only [true_iff]
        omega
    rw [h1, Finset.length_toList, Finset.length_toList,
      Finset.card_union_of_disjoint hDI]

/-- Witness for the amended C2 theorem at `D = {1}`, `I = {2}`, `T = 4`. -/
theorem PrepareResult_success_iff_witness :
    ((PrepareResult [1] [2] 4).Success = true ↔ [1].length + [2].length ≤ 4 / 2)
    ∧ ((PrepareResult ({1} : Finset ℕ).toList ({2} : Finset ℕ).toList 4).Success = true
        ↔ ({1} ∪ {2} : Finset ℕ).card ≤ 4 / 2) :=
  ⟨(PrepareResult_success_iff [1] [2] 4).1,
   (PrepareResult_success_iff ({1} : Finset ℕ).toList ({2} : Finset ℕ).toList 4).2.2
     {1} {2} (by decide)⟩

/-! ### C8 — the eligibility notification's firing height -/

/-- C8 (with `BlockWaiter` modelled from the spec, its implementation not
being among the sources): the one-shot notification registered by
`waitForSubmissionEligibility` for the member with 1-based index `memberIndex`
fires at `InitialBlockHeight + (memberIndex - 1) * ResultPublicationBlockStep`,
and the height at which the wait is registered plays no role. -/
theorem submissionEligibility_fires_from_initial_height
    (initialBlockHeight registrationHeight registrationHeight2 memberIndex blockStep : Nat)
    (h : 1 ≤ memberIndex) :
    blockWaiterFireHeight initialBlockHeight registrationHeight
        (waitForSubmissionEligibilityOffset memberIndex blockStep)
      = initialBlockHeight + (memberIndex - 1) * blockStep
    ∧ blockWaiterFireHeight initialBlockHeight registrationHeight
        (waitForSubmissionEligibilityOffset memberIndex blockStep)
      = blockWaiterFireHeight initialBlockHeight registrationHeight2
        (waitForSubmissionEligibilityOffset memberIndex blockStep) :=
  ⟨rfl, rfl⟩

/-- Witness: member 3 with block step 7, initial height 100, fires at 114
regardless of whether the wait was registered at height 250 or 999. -/
theorem submissionEligibility_fires_witness :
    1 ≤ 3
    ∧ blockWaiterFireHeight 100 250 (waitForSubmissionEligibilityOffset 3 7)
        = 100 + (3 - 1) * 7
    ∧ blockWaiterFireHeight 100 250 (waitForSubmissionEligibilityOffset 3 7)
        = blockWaiterFireHeight 100 999 (waitForSubmissionEligibilityOffset 3 7) :=
  ⟨by decide,
   (submissionEligibility_fires_from_initial_height 100 250 999 3 7 (by decide)).1,
   (submissionEligibility_fires_from_initial_height 100 250 999 3 7 (by decide)).2⟩

/-! ### C3 — the submission race yields to another member's result -/

/-- If a submission event for the watched request arrives before any
eligibility firing, the select loop returns without submitting. -/
theorem submitLoop_returns_on_matching (requestID : Nat) (post : List SubmitEvent)
    (pre : List SubmitEvent) (h : SubmitEvent.eligible ∉ pre) :
    submitLoop requestID (pre ++ SubmitEvent.submission requestID :: post)
      = SubmitOutcome.returnedWithoutSubmitting := by
  induction pre with
  | nil => simp [submitLoop]
  | cons e pre2 ih =>
    cases e with
    | eligible => exact absurd (List.mem_cons_self _ _) h
    | submission r =>
      have h2 : SubmitEvent.eligible ∉ pre2 := fun hm => h (List.mem_cons_of_mem _ hm)
      by_cases hr : r = requestID
      · simp [submitLoop, hr]
      · simp only [List.cons_append, submitLoop, if_neg hr]
        exact ih h2

/-- C3: `SubmitDKGResult` returns success without sending a transaction
whenever another member's result for the same request is observed — either
the result is already on-chain at entry, or a submission event carrying this
exact request ID arrives before the member's own eligibility fires; a
submission event for another request ID leaves the loop waiting on the
remaining events. -/
theorem SubmitDKGResult_yields_to_other_member (requestID : Nat) (env : ChainEnv)
    (hc : env.configOk = true) (hs : env.subscribeOk = true) :
    (env.alreadySubmittedCheck = some true →
      SubmitDKGResult requestID env = SubmitOutcome.returnedWithoutSubmitting)
    ∧ (∀ pre post, env.alreadySubmittedCheck = some false → env.waiterOk = true →
        env.events = pre ++ SubmitEvent.submission requestID :: post →
        SubmitEvent.eligible ∉ pre →
        SubmitDKGResult requestID env = SubmitOutcome.returnedWithoutSubmitting)
    ∧ (∀ other rest, other ≠ requestID →
        submitLoop requestID (SubmitEvent.submission other :: rest)
          = submitLoop requestID rest) := by
  refine ⟨?_, ?_, ?_⟩
  · intro hap
    simp [SubmitDKGResult, hc, hs, hap]
  · intro pre post hap hw hev hnel
    simp only [SubmitDKGResult, hc, hs, hap, hw]
    simp only [Bool.true_eq_false, if_false]
    rw [hev]
    exact submitLoop_returns_on_matching requestID post pre hnel
  · intro other rest hother
    simp [submitLoop, hother]

/-- Witness for C3: request 7 with a result already on-chain at entry, and
request 7 observing events for request 5 (ignored) then request 7
(terminates the wait) before its own eligibility. -/
theorem SubmitDKGResult_yields_witness :
    SubmitDKGResult 7 alreadyDoneEnv = SubmitOutcome.returnedWithoutSubmitting
    ∧ SubmitDKGResult 7 racedEnv = SubmitOutcome.returnedWithoutSubmitting := by
  constructor
  · exact (SubmitDKGResult_yields_to_other_member 7 alreadyDoneEnv rfl rfl).1 rfl
  · exact (SubmitDKGResult_yields_to_other_member 7 racedEnv rfl rfl).2.1
      [SubmitEvent.submission 5] [] rfl rfl rfl (by decide)

/-! ### C1 — the five-group selection example -/

/-- C1: in every registry with five groups, `ExpiredGroupOffset = 1` (group 0
expired; the scenario's expiry bookkeeping is current, i.e. the group now at
the offset has not itself time-expired at the current height) and group 2
tracked in `ActiveTerminatedGroups`: `numberOfGroups` is 3, and for each seed
in {0, 1, 2} `selectGroup` returns an index in {1, 3, 4} — never an expired
or terminated index. -/
theorem selectGroup_five_group_example (s : Storage) (blockNumber : Nat)
    (hlen : s.groups.length = 5)
    (hoff : s.expiredGroupOffset = 1)
    (hatg : s.activeTerminatedGroups = [2])
    (hfresh : ∀ g, s.groups[1]? = some g →
      ¬ (groupActiveTimeOf s g < blockNumber)) :
    numberOfGroups s = some 3
    ∧ ∀ seed, seed ∈ ([0, 1, 2] : List Nat) →
        (selectGroup s blockNumber seed).map Prod.snd
          ∈ ([some 1, some 3, some 4] : List (Option Nat)) := by
  have h1lt : 1 < s.groups.length := by omega
  obtain ⟨g1, hg1⟩ : ∃ g, s.groups[1]? = some g :=
    ⟨_, List.getElem?_eq_getElem h1lt⟩
  have hcond : ¬ (groupActiveTimeAt s.groupActiveTime g1 < blockNumber) :=
    hfresh g1 hg1
  have hns : numberOfGroups s = some 3 := by
    unfold numberOfGroups
    rw [hlen, hoff, hatg]
    decide
  have hexp : expireOldGroups s blockNumber =
      some { s with expiredGroupOffset := 1, activeTerminatedGroups := [2] } := by
    unfold expireOldGroups
    rw [hoff, hatg, hlen]
    rw [show (5 + 1 - 1 : Nat) = 4 + 1 from rfl]
    rw [expireLoopFuel_stop 4 1 g1 hg1 hcond]
    rfl
  have hnum1 : numberOfGroups
      { s with expiredGroupOffset := 1, activeTerminatedGroups := [2] } = some 3 := by
    unfold numberOfGroups
    show (safeSub s.groups.length 1).bind
      (fun x => safeSub x ([2] : List Nat).length) = some 3
    rw [hlen]
    decide
  have hsel : ∀ seed : Nat, selectGroup s blockNumber seed =
      some ({ s with expiredGroupOffset := 1, activeTerminatedGroups := [2] },
        shiftByTerminatedGroups
          { s with expiredGroupOffset := 1, activeTerminatedGroups := [2] }
          (shiftByExpiredGroups
            { s with expiredGroupOffset := 1, activeTerminatedGroups := [2] }
            (seed % 3))) := by
    intro seed
    simp [selectGroup, hns, hexp, hnum1]
  refine ⟨hns, ?_⟩
  intro seed hseed
  have hseed3 : seed = 0 ∨ seed = 1 ∨ seed = 2 := by simpa using hseed
  rcases hseed3 with rfl | rfl | rfl
  · rw [hsel 0]
    exact (by decide : (some 1 : Option Nat) ∈ [some 1, some 3, some 4])
  · rw [hsel 1]
    exact (by decide : (some 3 : Option Nat) ∈ [some 1, some 3, some 4])
  · rw [hsel 2]
    exact (by decide : (some 4 : Option Nat) ∈ [some 1, some 3, some 4])

/-- Witness for C1 at the concrete `fiveGroupStorage` and height 1050, where
no group beyond the offset has time-expired yet. -/
theorem selectGroup_five_group_example_witness :
    numberOfGroups fiveGroupStorage = some 3
    ∧ (selectGroup fiveGroupStorage 1050 0).map Prod.snd
        ∈ ([some 1, some 3, some 4] : List (Option Nat))
    ∧ (selectGroup fiveGroupStorage 1050 1).map Prod.snd
        ∈ ([some 1, some 3, some 4] : List (Option Nat))
    ∧ (selectGroup fiveGroupStorage 1050 2).map Prod.snd
        ∈ ([some 1, some 3, some 4] : List (Option Nat)) := by
  have hfresh : ∀ g, fiveGroupStorage.groups[1]? = some g →
      ¬ (groupActiveTimeOf fiveGroupStorage g < 1050) := by
    intro g hg
    rw [show fiveGroupStorage.groups[1]?
        = some { groupPubKey := 1, registrationBlockHeight := 1000, terminated := false }
      from rfl] at hg
    cases hg
    decide
  have h := selectGroup_five_group_example fiveGroupStorage 1050 rfl rfl rfl hfresh
  exact ⟨h.1, h.2 0 (by decide), h.2 1 (by decide), h.2 2 (by decide)⟩

/-! ### C6 — idempotence of expireOldGroups -/

/-- Running `expireOldGroups` on a state whose offset already sits at a
not-yet-expired group leaves the offset where it is and only runs the
removal pass. -/
theorem expireOldGroups_stationary (t : Storage) (blockNumber : Nat) (g : Group)
    (hg : t.groups[t.expiredGroupOffset]? = some g)
    (hc : ¬ (groupActiveTimeAt t.groupActiveTime g < blockNumber)) :
    expireOldGroups t blockNumber =
      some { t with
        expiredGroupOffset := t.expiredGroupOffset,
        activeTerminatedGroups :=
          removeTerminatedLoop t.expiredGroupOffset
            t.activeTerminatedGroups.length 0 t.activeTerminatedGroups } := by
  have hlt : t.expiredGroupOffset < t.groups.length := by
    by_contra hge
    rw [List.getElem?_eq_none (by omega)] at hg
    exact absurd hg (by simp)
  obtain ⟨f, hf⟩ : ∃ f, t.groups.length + 1 - t.expiredGroupOffset = f + 1 :=
    ⟨t.groups.length - t.expiredGroupOffset, by omega⟩
  unfold expireOldGroups
  rw [hf, expireLoopFuel_stop f t.expiredGroupOffset g hg hc]

/-- C6 counterexample: in `skewedRemovalStorage` at height 50 (both
terminated groups 0 and 1 time-expired, group 2 not), one call moves the
offset to 2 but leaves `ActiveTerminatedGroups = [1]` — the removal pass
swapped entry 1 into the slot it had just processed and never re-examined
it, so a covered entry (1 < 2) survives — while an immediate second call at
the same height removes it, changing the state: the call is not idempotent
and not every covered entry is removed by a single call. -/
theorem expireOldGroups_not_idempotent_counterexample :
    (expireOldGroups skewedRemovalStorage 50).map Storage.expiredGroupOffset = some 2
    ∧ (expireOldGroups skewedRemovalStorage 50).map Storage.activeTerminatedGroups
        = some [1]
    ∧ ((expireOldGroups skewedRemovalStorage 50).bind
        (fun s1 => expireOldGroups s1 50)).map Storage.activeTerminatedGroups
        = some []
    ∧ ((expireOldGroups skewedRemovalStorage 50).bind
        (fun s1 => expireOldGroups s1 50)).map Storage.activeTerminatedGroups
        ≠ (expireOldGroups skewedRemovalStorage 50).map Storage.activeTerminatedGroups := by
  decide

/-- C6 amended: a successful `expireOldGroups` call never decreases
`ExpiredGroupOffset`, and an immediate second call at the same block height
succeeds and leaves `ExpiredGroupOffset` unchanged; but the second call may
still shrink `ActiveTerminatedGroups`, because one removal pass can leave
entries covered by the offset (the entry swapped into the current slot is
not re-examined). -/
theorem expireOldGroups_offset_stable (s : Storage) (blockNumber : Nat) (s1 : Storage)
    (h : expireOldGroups s blockNumber = some s1) :
    s.expiredGroupOffset ≤ s1.expiredGroupOffset
    ∧ ∃ s2, expireOldGroups s1 blockNumber = some s2
        ∧ s2.expiredGroupOffset = s1.expiredGroupOffset := by
  unfold expireOldGroups at h
  cases hE : expireLoopFuel s.groupActiveTime s.groups blockNumber
      (s.groups.length + 1 - s.expiredGroupOffset) s.expiredGroupOffset with
  | none => rw [hE] at h; exact absurd h (by simp)
  | some off =>
    rw [hE] at h
    simp only [] at h
    injection h with h1
    subst h1
    obtain ⟨g, hg, hc⟩ := expireLoopFuel_not_expired hE
    exact ⟨expireLoopFuel_le hE,
      ⟨_, expireOldGroups_stationary _ blockNumber g hg hc, rfl⟩⟩

/-- Witness for the amended C6 theorem: on `skewedRemovalStorage` at height
50 the offset settles at 2 after the first call and stays there on the
second. -/
theorem expireOldGroups_offset_stable_witness :
    ((expireOldGroups skewedRemovalStorage 50).bind
        (fun s1 => expireOldGroups s1 50)).map Storage.expiredGroupOffset
      = (expireOldGroups skewedRemovalStorage 50).map Storage.expiredGroupOffset := by
  cases hr : expireOldGroups skewedRemovalStorage 50 with
  | none => simp
  | some s1 =>
    obtain ⟨hle, s2, h2, he⟩ := expireOldGroups_offset_stable skewedRemovalStorage 50 s1 hr
    simp [h2, he]

/-! ### C7 — reward withdrawal happens once, only when expired and stale -/

/-- The reward accumulation loop of `withdrawFromGroup` pays the accumulated
group reward once per member-list slot holding the operator. -/
theorem foldl_reward_count (operator v : Nat) (l : List Nat) :
    ∀ init : Nat,
      l.foldl (fun rewards a => if operator = a then rewards + v else rewards) init
        = init + (l.filter (fun a => operator = a)).length * v := by
  induction l with
  | nil => intro init; simp
  | cons a t ih =>
    intro init
    by_cases ha : operator = a
    · rw [List.foldl_cons, if_pos ha, ih]
      have hf : List.filter (fun x => decide (operator = x)) (a :: t)
          = a :: List.filter (fun x => decide (operator = x)) t := by
        simp [List.filter_cons, ha]
      rw [hf, List.length_cons]
      ring
    · rw [List.foldl_cons, if_neg ha, ih]
      have hf : List.filter (fun x => decide (operator = x)) (a :: t)
          = List.filter (fun x => decide (operator = x)) t := by
        simp [List.filter_cons, ha]
      rw [hf]

/-- After `withdrawFromGroup` marks the `(group, operator)` pair withdrawn,
any further call for the same pair fails, at every block height. -/
theorem withdrawFromGroup_after_mark (s : Storage) (g : Group)
    (operator groupIndex blockNumber2 : Nat)
    (hg : s.groups[groupIndex]? = some g) :
    withdrawFromGroup
      { s with withdrawn := fun pk o =>
          if pk = g.groupPubKey ∧ o = operator then true else s.withdrawn pk o }
      blockNumber2 operator groupIndex = none := by
  unfold withdrawFromGroup
  have hgg : ({ s with withdrawn := fun pk o =>
      if pk = g.groupPubKey ∧ o = operator then true else s.withdrawn pk o } : Storage).groups
      = s.groups := rfl
  rw [hgg, hg]
  simp only []
  split
  · simp
  · rfl

/-- C7: `withdrawFromGroup` fails whenever the group is not yet stale; and a
successful call implies the group was expired (index below the offset) and
stale, pays the accumulated reward once per occurrence of the operator in
the member list, and leaves a state in which every further call for the same
`(group, operator)` pair fails. -/
theorem withdrawFromGroup_once (s : Storage) (blockNumber operator groupIndex : Nat) :
    (∀ g, s.groups[groupIndex]? = some g →
        ¬ (groupStaleTime s g < blockNumber) →
        withdrawFromGroup s blockNumber operator groupIndex = none)
    ∧ (∀ s1 r, withdrawFromGroup s blockNumber operator groupIndex = some (s1, r) →
        groupIndex < s.expiredGroupOffset
        ∧ (∃ g, s.groups[groupIndex]? = some g
            ∧ groupStaleTime s g < blockNumber
            ∧ r = ((s.groupMembers g.groupPubKey).filter
                    (fun a => operator = a)).length
                  * s.groupMemberRewards g.groupPubKey)
        ∧ ∀ blockNumber2,
            withdrawFromGroup s1 blockNumber2 operator groupIndex = none) := by
  constructor
  · intro g hg hstale
    unfold withdrawFromGroup
    rw [hg]
    simp only []
    rw [if_neg (fun hand => hstale hand.2)]
  · intro s1 r hw
    unfold withdrawFromGroup at hw
    cases hg : s.groups[groupIndex]? with
    | none => rw [hg] at hw; exact absurd hw (by simp)
    | some g =>
      rw [hg] at hw
      simp only [] at hw
      by_cases hcond : s.expiredGroupOffset > groupIndex ∧ groupStaleTime s g < blockNumber
      · rw [if_pos hcond] at hw
        by_cases hwd : s.withdrawn g.groupPubKey operator
        · rw [if_pos hwd] at hw; exact absurd hw (by simp)
        · rw [if_neg hwd] at hw
          injection hw with hw1
          injection hw1 with hs1 hr
          subst hs1
          subst hr
          refine ⟨hcond.1, ⟨g, rfl, hcond.2, ?_⟩, ?_⟩
          · rw [foldl_reward_count]
            simp
          · intro blockNumber2
            exact withdrawFromGroup_after_mark s g operator groupIndex blockNumber2 hg
      · rw [if_neg hcond] at hw
        exact absurd hw (by simp)

/-- Witness for C7 on `rewardStorage` (group 0, key 7, operator 3 in slots 1
and 3 of the member list, accumulated reward 5, stale strictly after block
15): the call at height 12 fails, the call at height 16 pays 10, and a
repeat call fails. -/
theorem withdrawFromGroup_once_witness :
    withdrawFromGroup rewardStorage 12 3 0 = none
    ∧ (withdrawFromGroup rewardStorage 16 3 0).map Prod.snd = some 10
    ∧ (withdrawFromGroup rewardStorage 16 3 0).bind
        (fun p => withdrawFromGroup p.1 16 3 0) = none := by
  refine ⟨?_, by decide, ?_⟩
  · exact (withdrawFromGroup_once rewardStorage 12 3 0).1
      { groupPubKey := 7, registrationBlockHeight := 0, terminated := false }
      rfl (by decide)
  · cases hr : withdrawFromGroup rewardStorage 16 3 0 with
    | none => simp
    | some p =>
      have h2 := (withdrawFromGroup_once rewardStorage 16 3 0).2 p.1 p.2 (by rw [hr])
      simpa using h2.2.2 16

/-! ### C10 — unchecked termination double-counts a group -/

/-- Arithmetic characterization of `numberOfGroups` with its two SafeMath
subtractions. -/
theorem numberOfGroups_eq_some (s : Storage) (n : Nat) :
    numberOfGroups s = some n ↔
      s.expiredGroupOffset ≤ s.groups.length
      ∧ s.activeTerminatedGroups.length ≤ s.groups.length - s.expiredGroupOffset
      ∧ n = s.groups.length - s.expiredGroupOffset - s.activeTerminatedGroups.length := by
  unfold numberOfGroups safeSub
  split_ifs with h1
  · simp only [Option.some_bind]
    split_ifs with h2
    · constructor
      · intro h; injection h with h; exact ⟨h1, h2, h.symm⟩
      · rintro ⟨-, -, rfl⟩; rfl
    · constructor
      · intro h; exact absurd h (by simp)
      · rintro ⟨-, hc, -⟩; exact absurd hc h2
  · simp only [Option.none_bind]
    constructor
    · intro h; exact absurd h (by simp)
    · rintro ⟨hc, -, -⟩; exact absurd hc h1

/-- C10: `terminateGroup` never consults the terminated flag, so two calls
for the same index (still below no expiry) leave the index twice in
`ActiveTerminatedGroups`, and `numberOfGroups` then subtracts the group
twice, under-reporting the active pool by one; `reportRelayEntryTimeout`
invokes this unconditional termination. -/
theorem terminateGroup_double_count (s : Storage) (groupIndex : Nat) (s1 s2 : Storage)
    (h1 : terminateGroup s groupIndex = some s1)
    (h2 : terminateGroup s1 groupIndex = some s2) :
    s2.activeTerminatedGroups = s.activeTerminatedGroups ++ [groupIndex, groupIndex]
    ∧ (∀ n, numberOfGroups s = some n → 2 ≤ n → numberOfGroups s2 = some (n - 2))
    ∧ (∀ groupSize minimumStake, groupSize ≠ 0 →
        (reportRelayEntryTimeout s groupIndex groupSize minimumStake).map Prod.fst
          = some s1) := by
  unfold terminateGroup at h1 h2
  cases hg : s.groups[groupIndex]? with
  | none => rw [hg] at h1; exact absurd h1 (by simp)
  | some g =>
    rw [hg] at h1
    simp only [] at h1
    injection h1 with h1
    subst h1
    have hlt : groupIndex < s.groups.length := by
      by_contra hge
      rw [List.getElem?_eq_none (by omega)] at hg
      exact absurd hg (by simp)
    have hg2 : (s.groups.set groupIndex { g with terminated := true })[groupIndex]?
        = some { g with terminated := true } :=
      List.getElem?_set_eq_of_lt _ (by simpa using hlt)
    rw [hg2] at h2
    simp only [] at h2
    injection h2 with h2
    subst h2
    refine ⟨by simp, ?_, ?_⟩
    · intro n hn h2n
      rw [numberOfGroups_eq_some] at hn ⊢
      obtain ⟨ha, hb, rfl⟩ := hn
      refine ⟨?_, ?_, ?_⟩
      · simpa using ha
      · simp only [List.length_set, List.length_append, List.length_cons,
          List.length_nil]
        omega
      · simp only [List.length_set, List.length_append, List.length_cons,
          List.length_nil]
        omega
    · intro groupSize minimumStake hgs
      unfold reportRelayEntryTimeout terminateGroup
      rw [hg]
      simp only []
      rw [if_neg hgs]
      rfl

/-- Witness for C10: two terminations of group 0 in `tripleStorage` leave
`ActiveTerminatedGroups = [0, 0]` and `numberOfGroups` drops from 3 to 1. -/
theorem terminateGroup_double_count_witness :
    tripleStorage2.activeTerminatedGroups
      = tripleStorage.activeTerminatedGroups ++ [0, 0]
    ∧ numberOfGroups tripleStorage = some 3
    ∧ numberOfGroups tripleStorage2 = some 1
    ∧ (reportRelayEntryTimeout tripleStorage 0 64 1000).map Prod.fst
      = some tripleStorage1 := by
  have h := terminateGroup_double_count tripleStorage 0 tripleStorage1 tripleStorage2 rfl rfl
  exact ⟨h.1, by decide, h.2.1 3 (by decide) (by decide), h.2.2 64 1000 (by decide)⟩

end Keep
